import Mathlib

/-!
Verification development for the two database synchronization jobs
`src/imds-etl.py` (MySQL table MKISTAT → PostgreSQL table imds_mk_istats)
and `src/imds_trds.py` (MySQL table TRD → PostgreSQL table imds_trds).

Modelling choices, matched to the Python source:
* Scalar column values are a type parameter `V` with decidable equality.
* A fetched source row is a structure with one field per hard-coded source
  column name; a prepared destination record is a structure with one field
  per destination column name appearing in the record dict.
* The random `uuid.uuid4()` draws are modelled by a stream
  `uuids : Nat → String`, consumed one entry per mapped row.
* The SQLAlchemy session is a pair of row lists: `committed` (rows already
  in the destination table) and `staged` (rows inserted in the current
  transaction, uncommitted).  A `session.query(...).filter_by(...).first()`
  existence probe inside the transaction sees both, because the SELECT runs
  in the same transaction as the uncommitted INSERTs; `commit` merges the
  staged rows into the table, and closing the session without committing
  (as the context manager does on an exception) rolls the staged rows back.
* The check-and-insert loop shared by the two scripts is one fold,
  parameterised by the `filter_by` predicate; each script instantiates it
  with its own natural-key comparison.
-/

/-- Row of the MySQL source table MKISTAT as fetched by
`SELECT * FROM MKISTAT` in imds-etl.py, one field per column name read by
the record-construction loop (lines 76-99). -/
structure MkistatRow (V : Type) where
  MKISTAT_INSTRUMENT_CODE : V
  MKISTAT_INSTRUMENT_NUMBER : V
  MKISTAT_QUOTE_BASES : V
  MKISTAT_OPEN_PRICE : V
  MKISTAT_PUB_LAST_TRADED_PRICE : V
  MKISTAT_SPOT_LAST_TRADED_PRICE : V
  MKISTAT_HIGH_PRICE : V
  MKISTAT_LOW_PRICE : V
  MKISTAT_CLOSE_PRICE : V
  MKISTAT_YDAY_CLOSE_PRICE : V
  MKISTAT_TOTAL_TRADES : V
  MKISTAT_TOTAL_VOLUME : V
  MKISTAT_TOTAL_VALUE : V
  MKISTAT_PUBLIC_TOTAL_TRADES : V
  MKISTAT_PUBLIC_TOTAL_VOLUME : V
  MKISTAT_PUBLIC_TOTAL_VALUE : V
  MKISTAT_SPOT_TOTAL_TRADES : V
  MKISTAT_SPOT_TOTAL_VOLUME : V
  MKISTAT_SPOT_TOTAL_VALUE : V
  MKISTAT_LM_DATE_TIME : V
deriving DecidableEq

/-- Destination record for the PostgreSQL table imds_mk_istats, one field
per key of the record dict built at imds-etl.py lines 77-99. -/
structure MkIstatRecord (V : Type) where
  uuid : String
  mkstat_instrument_code : V
  mkstat_instrument_number : V
  mkstat_quote_bases : V
  mkstat_open_price : V
  mkstat_pub_last_trade_price : V
  mkstat_spot_last_trade_price : V
  mkstat_high_price : V
  mkstat_low_price : V
  mkstat_close_price : V
  mkstat_yday_close_price : V
  mkstat_total_trades : V
  mkstat_total_volume : V
  mkstat_total_value : V
  mkstat_public_total_trades : V
  mkstat_public_total_volume : V
  mkstat_public_total_value : V
  mkstat_spot_total_trades : V
  mkstat_spot_total_volume : V
  mkstat_spot_total_value : V
  mkstat_lm_date_time : V
deriving DecidableEq

/-- Row of the MySQL source table TRD as fetched by `SELECT * FROM TRD`
in imds_trds.py, one field per column name read at lines 67-74. -/
structure TrdRow (V : Type) where
  TRD_TOTAL_TRADES : V
  TRD_TOTAL_VOLUME : V
  TRD_TOTAL_VALUE : V
  TRD_LM_DATE_TIME : V
deriving DecidableEq

/-- Destination record for the PostgreSQL table imds_trds, one field per
key of the record dict built at imds_trds.py lines 68-74. -/
structure TrdRecord (V : Type) where
  id : String
  trd_total_trades : V
  trd_total_volume : V
  trd_total_value : V
  trd_lm_date_time : V
deriving DecidableEq

/-- Record construction for one MKISTAT row (imds-etl.py lines 77-99):
a fresh uuid string plus a 1:1 copy of each source column under its
destination name. -/
def mapMkistat {V : Type} (u : String) (data : MkistatRow V) : MkIstatRecord V :=
  { uuid := u
    mkstat_instrument_code := data.MKISTAT_INSTRUMENT_CODE
    mkstat_instrument_number := data.MKISTAT_INSTRUMENT_NUMBER
    mkstat_quote_bases := data.MKISTAT_QUOTE_BASES
    mkstat_open_price := data.MKISTAT_OPEN_PRICE
    mkstat_pub_last_trade_price := data.MKISTAT_PUB_LAST_TRADED_PRICE
    mkstat_spot_last_trade_price := data.MKISTAT_SPOT_LAST_TRADED_PRICE
    mkstat_high_price := data.MKISTAT_HIGH_PRICE
    mkstat_low_price := data.MKISTAT_LOW_PRICE
    mkstat_close_price := data.MKISTAT_CLOSE_PRICE
    mkstat_yday_close_price := data.MKISTAT_YDAY_CLOSE_PRICE
    mkstat_total_trades := data.MKISTAT_TOTAL_TRADES
    mkstat_total_volume := data.MKISTAT_TOTAL_VOLUME
    mkstat_total_value := data.MKISTAT_TOTAL_VALUE
    mkstat_public_total_trades := data.MKISTAT_PUBLIC_TOTAL_TRADES
    mkstat_public_total_volume := data.MKISTAT_PUBLIC_TOTAL_VOLUME
    mkstat_public_total_value := data.MKISTAT_PUBLIC_TOTAL_VALUE
    mkstat_spot_total_trades := data.MKISTAT_SPOT_TOTAL_TRADES
    mkstat_spot_total_volume := data.MKISTAT_SPOT_TOTAL_VOLUME
    mkstat_spot_total_value := data.MKISTAT_SPOT_TOTAL_VALUE
    mkstat_lm_date_time := data.MKISTAT_LM_DATE_TIME }

/-- Record construction for one TRD row (imds_trds.py lines 68-74). -/
def mapTrd {V : Type} (u : String) (data : TrdRow V) : TrdRecord V :=
  { id := u
    trd_total_trades := data.TRD_TOTAL_TRADES
    trd_total_volume := data.TRD_TOTAL_VOLUME
    trd_total_value := data.TRD_TOTAL_VALUE
    trd_lm_date_time := data.TRD_LM_DATE_TIME }

/-- The record-construction loop of imds-etl.py (lines 73-102): build
`insert_records` by appending one mapped record per fetched row, drawing
the next uuid from the stream for each row. -/
def prepareMkistat {V : Type} (uuids : Nat → String) :
    List (MkistatRow V) → Nat → List (MkIstatRecord V)
  | [], _ => []
  | data :: rest, i => mapMkistat (uuids i) data :: prepareMkistat uuids rest (i + 1)

/-- The record-construction loop of imds_trds.py (lines 64-75). -/
def prepareTrd {V : Type} (uuids : Nat → String) :
    List (TrdRow V) → Nat → List (TrdRecord V)
  | [], _ => []
  | data :: rest, i => mapTrd (uuids i) data :: prepareTrd uuids rest (i + 1)

/-- State of the SQLAlchemy session on the PostgreSQL side: the rows of the
destination table as committed before or by this session, plus the inserts
executed in the current (open) transaction. -/
structure Session (R : Type) where
  committed : List R
  staged : List R
deriving DecidableEq

/-- Rows visible to a `session.query` SELECT issued inside the open
transaction: the committed table content plus this transaction's own
uncommitted inserts. -/
def Session.visible {R : Type} (s : Session R) : List R :=
  s.committed ++ s.staged

/-- The `session.query(table).filter_by(...).first()` existence probe,
truthiness only: is some visible row accepted by the filter predicate. -/
def Session.existsFirst {R : Type} (s : Session R) (p : R → Bool) : Bool :=
  s.visible.any p

/-- One `session.execute(table.insert().values(record))`: the record joins
the transaction's uncommitted inserts. -/
def Session.execute {R : Type} (s : Session R) (r : R) : Session R :=
  { s with staged := s.staged ++ [r] }

/-- A `session.commit()`: every staged insert becomes part of the table. -/
def Session.commit {R : Type} (s : Session R) : Session R :=
  { committed := s.committed ++ s.staged, staged := [] }

/-- Session teardown without commit (the context-manager exit on an
exception): the open transaction is rolled back, staged inserts are lost. -/
def Session.rollback {R : Type} (s : Session R) : Session R :=
  { committed := s.committed, staged := [] }

/-- One iteration of the check-and-insert loop (imds-etl.py lines 109-120,
imds_trds.py lines 81-91): probe the destination for a row matching the
record under the filter, and insert the record only when nothing matched.
The Nat component counts executed inserts (`inserted_count` in
imds-etl.py; imds_trds.py runs the same loop without the counter). -/
def syncStep {R : Type} (filt : R → R → Bool) (sn : Session R × Nat)
    (record : R) : Session R × Nat :=
  if sn.1.existsFirst (fun row => filt row record) then sn
  else (sn.1.execute record, sn.2 + 1)

/-- The check-and-insert loop over a list of prepared records, from an
arbitrary starting session and counter. -/
def syncFold {R : Type} (filt : R → R → Bool) (records : List R)
    (sn : Session R × Nat) : Session R × Nat :=
  records.foldl (syncStep filt) sn

/-- The whole `with Session() as session:` loop body before commit:
counter starts at 0 (imds-etl.py line 108). -/
def syncLoop {R : Type} (filt : R → R → Bool) (records : List R)
    (s : Session R) : Session R × Nat :=
  syncFold filt records (s, 0)

/-- The `filter_by` of imds-etl.py lines 111-114: equality on the two
natural-key columns mkstat_instrument_code and mkstat_lm_date_time. -/
def mkIstatMatch {V : Type} [DecidableEq V] (row record : MkIstatRecord V) : Bool :=
  decide (row.mkstat_instrument_code = record.mkstat_instrument_code ∧
    row.mkstat_lm_date_time = record.mkstat_lm_date_time)

/-- The `filter_by` of imds_trds.py lines 83-86: equality on the two
natural-key columns trd_total_trades and trd_lm_date_time. -/
def trdMatch {V : Type} [DecidableEq V] (row record : TrdRecord V) : Bool :=
  decide (row.trd_total_trades = record.trd_total_trades ∧
    row.trd_lm_date_time = record.trd_lm_date_time)

/-- Natural key of an imds_mk_istats record: the pair of columns compared
by `mkIstatMatch`. -/
def mkIstatNK {V : Type} (r : MkIstatRecord V) : V × V :=
  (r.mkstat_instrument_code, r.mkstat_lm_date_time)

/-- Natural key of an imds_trds record: the pair of columns compared by
`trdMatch`. -/
def trdNK {V : Type} (r : TrdRecord V) : V × V :=
  (r.trd_total_trades, r.trd_lm_date_time)

/-- A filter that accepts a row exactly when its key under `k` equals the
probed record's key.  Both scripts' `filter_by` predicates are of this
shape (see `mkIstatMatch_eq_keyMatch` and `trdMatch_eq_keyMatch`). -/
def keyMatch {R K : Type} [DecidableEq K] (k : R → K) (row record : R) : Bool :=
  decide (k row = k record)

/-- A completed run of imds-etl.py against source rows `src` and initial
destination content `db`: prepare all records, run the check-and-insert
loop in a fresh session, commit, and return the destination table content
together with `inserted_count` (lines 52-128). -/
def imdsEtlRun {V : Type} [DecidableEq V] (uuids : Nat → String)
    (src : List (MkistatRow V)) (db : List (MkIstatRecord V)) :
    List (MkIstatRecord V) × Nat :=
  ((syncLoop mkIstatMatch (prepareMkistat uuids src 0) ⟨db, []⟩).1.commit.committed,
   (syncLoop mkIstatMatch (prepareMkistat uuids src 0) ⟨db, []⟩).2)

/-- A run of imds-etl.py that fails after processing the first `n` prepared
records and before `session.commit()` (connection severed, query error,
or the commit itself rejected): the context manager closes the session,
rolling the open transaction back; the result is the destination table
content that persists. -/
def imdsEtlAborted {V : Type} [DecidableEq V] (uuids : Nat → String)
    (src : List (MkistatRow V)) (db : List (MkIstatRecord V)) (n : Nat) :
    List (MkIstatRecord V) :=
  ((syncLoop mkIstatMatch ((prepareMkistat uuids src 0).take n) ⟨db, []⟩).1.rollback).committed

/-- A completed run of imds_trds.py (lines 43-93).  The script keeps no
insert counter; the Nat returned here is the number of `session.execute`
calls the loop performed, for comparison with the script's final log. -/
def imdsTrdsRun {V : Type} [DecidableEq V] (uuids : Nat → String)
    (src : List (TrdRow V)) (db : List (TrdRecord V)) :
    List (TrdRecord V) × Nat :=
  ((syncLoop trdMatch (prepareTrd uuids src 0) ⟨db, []⟩).1.commit.committed,
   (syncLoop trdMatch (prepareTrd uuids src 0) ⟨db, []⟩).2)

/-- A run of imds_trds.py that fails after the first `n` prepared records
and before commit, analogous to `imdsEtlAborted`. -/
def imdsTrdsAborted {V : Type} [DecidableEq V] (uuids : Nat → String)
    (src : List (TrdRow V)) (db : List (TrdRecord V)) (n : Nat) :
    List (TrdRecord V) :=
  ((syncLoop trdMatch ((prepareTrd uuids src 0).take n) ⟨db, []⟩).1.rollback).committed

/-- The number imds_trds.py reports in its final log line 94,
`Inserted len of insert_records new records`: the length of the prepared
list, not the number of inserts the loop executed. -/
def imdsTrdsLoggedInserted {V : Type} (uuids : Nat → String)
    (src : List (TrdRow V)) : Nat :=
  (prepareTrd uuids src 0).length


/-- Password environment variables read by imds-etl.py lines 33-46 and
imds_trds.py lines 29-41.  These two are singled out because each is passed
through `quote` immediately after `os.getenv` (lines 35 and 43), before the
`try` statement; the remaining variables flow only into connection URL
strings, where a missing value interpolates without raising. -/
structure Env where
  MYSQL_PASSWORD : Option String
  POSTGRES_PASSWORD : Option String
deriving DecidableEq

/-- Outcome of one process run of a script: either the script reaches its
final logging lines and exits normally (with the text of the logged error,
if the except branch ran), or an exception propagates past the process
boundary. -/
inductive Outcome where
  | completed : Option String → Outcome
  | uncaught : String → Outcome
deriving DecidableEq

/-- Top-level control flow of imds-etl.py (imds_trds.py has the identical
shape): `quote(os.getenv(...))` on the two passwords runs before the `try`
statement, so a missing password makes `quote(None)` raise a TypeError with
no handler in scope; everything from engine creation to commit (lines
52-128) runs inside the `try`, whose bare `except Exception` (lines
130-131) logs the error message, after which the script proceeds to its
final log lines and exits normally. -/
def scriptRun (env : Env) (tryBody : Except String Unit) : Outcome :=
  match env.MYSQL_PASSWORD with
  | none => Outcome.uncaught "TypeError"
  | some _ =>
    match env.POSTGRES_PASSWORD with
    | none => Outcome.uncaught "TypeError"
    | some _ =>
      match tryBody with
      | Except.error e => Outcome.completed (some e)
      | Except.ok _ => Outcome.completed none

/-! Generic lemmas about the check-and-insert loop. -/

/-- Unfolding one loop iteration. -/
theorem syncFold_cons {R : Type} (filt : R → R → Bool) (r : R) (rest : List R)
    (sn : Session R × Nat) :
    syncFold filt (r :: rest) sn = syncFold filt rest (syncStep filt sn r) := rfl

/-- One loop iteration never touches the committed table content. -/
theorem syncStep_committed {R : Type} (filt : R → R → Bool) (sn : Session R × Nat) (r : R) :
    (syncStep filt sn r).1.committed = sn.1.committed := by
  unfold syncStep
  split <;> rfl

/-- The whole loop never touches the committed table content; only the
final `session.commit()` can. -/
theorem syncFold_committed {R : Type} (filt : R → R → Bool) (records : List R)
    (sn : Session R × Nat) :
    (syncFold filt records sn).1.committed = sn.1.committed := by
  induction records generalizing sn with
  | nil => rfl
  | cons r rest ih =>
      rw [syncFold_cons, ih, syncStep_committed]

/-- One loop iteration either leaves the visible rows unchanged or appends
the processed record. -/
theorem syncStep_visible {R : Type} (filt : R → R → Bool) (sn : Session R × Nat) (r : R) :
    (syncStep filt sn r).1.visible = sn.1.visible ∨
      (syncStep filt sn r).1.visible = sn.1.visible ++ [r] := by
  unfold syncStep
  split
  · exact Or.inl rfl
  · right
    simp [Session.visible, Session.execute]

/-- The loop only extends the rows visible inside the transaction. -/
theorem syncFold_visible_append {R : Type} (filt : R → R → Bool) (records : List R)
    (sn : Session R × Nat) :
    ∃ extra, (syncFold filt records sn).1.visible = sn.1.visible ++ extra := by
  induction records generalizing sn with
  | nil => exact ⟨[], by simp [syncFold]⟩
  | cons r rest ih =>
      obtain ⟨e, he⟩ := ih (syncStep filt sn r)
      rcases syncStep_visible filt sn r with h | h
      · exact ⟨e, by rw [syncFold_cons, he, h]⟩
      · exact ⟨[r] ++ e, by rw [syncFold_cons, he, h, List.append_assoc]⟩

/-- The loop only appends to the staged inserts. -/
theorem syncFold_staged_append {R : Type} (filt : R → R → Bool) (records : List R)
    (sn : Session R × Nat) :
    ∃ extra, (syncFold filt records sn).1.staged = sn.1.staged ++ extra := by
  obtain ⟨e, he⟩ := syncFold_visible_append filt records sn
  refine ⟨e, ?_⟩
  have hc := syncFold_committed filt records sn
  have hv := he
  simp only [Session.visible, hc, List.append_assoc] at hv
  exact List.append_cancel_left hv

/-- The loop is determined by the extensional behaviour of the filter. -/
theorem syncFold_congr {R : Type} {f g : R → R → Bool} (h : ∀ a b, f a b = g a b)
    (records : List R) (sn : Session R × Nat) :
    syncFold f records sn = syncFold g records sn := by
  induction records generalizing sn with
  | nil => rfl
  | cons r rest ih =>
      have hfun : (fun row => f row r) = (fun row => g row r) := funext fun row => h row r
      have hstep : syncStep f sn r = syncStep g sn r := by
        simp only [syncStep, Session.existsFirst, hfun]
      rw [syncFold_cons, syncFold_cons, hstep]
      exact ih _

/-- A row always matches itself under a key-equality filter. -/
theorem keyMatch_self {R K : Type} [DecidableEq K] (k : R → K) (r : R) :
    keyMatch k r r = true := by
  simp [keyMatch]

/-- The key-equality filter depends on the probed record only through its
key. -/
theorem keyMatch_congr_right {R K : Type} [DecidableEq K] (k : R → K)
    {r₁ r₂ : R} (h : k r₁ = k r₂) (row : R) :
    keyMatch k row r₁ = keyMatch k row r₂ := by
  simp [keyMatch, h]

/-- After the loop runs, every processed record has a visible row matching
its key: either it was already matched when probed, or the loop inserted
the record itself and inserts stay visible. -/
theorem syncFold_covers {R K : Type} [DecidableEq K] (k : R → K) (records : List R)
    (sn : Session R × Nat) :
    ∀ r ∈ records,
      ((syncFold (keyMatch k) records sn).1.visible.any fun row => keyMatch k row r) = true := by
  induction records generalizing sn with
  | nil => intro r hr; cases hr
  | cons a rest ih =>
      intro r hr
      rcases List.mem_cons.mp hr with h | h
      · subst h
        have hbase :
            ((syncStep (keyMatch k) sn r).1.visible.any fun row => keyMatch k row r) = true := by
          unfold syncStep
          split
          · next hc => simpa [Session.existsFirst] using hc
          · simp [Session.visible, Session.execute, keyMatch_self]
        obtain ⟨e, he⟩ := syncFold_visible_append (keyMatch k) rest (syncStep (keyMatch k) sn r)
        rw [syncFold_cons, he, List.any_append, hbase]
        rfl
      · rw [syncFold_cons]
        exact ih _ r h

/-- When every record's key is already matched by a visible row, the loop
is a no-op: no insert is executed and the counter stays put. -/
theorem syncFold_noop {R K : Type} [DecidableEq K] (k : R → K) (records : List R)
    (sn : Session R × Nat)
    (h : ∀ r ∈ records, (sn.1.visible.any fun row => keyMatch k row r) = true) :
    syncFold (keyMatch k) records sn = sn := by
  induction records with
  | nil => rfl
  | cons a rest ih =>
      have hcond : sn.1.existsFirst (fun row => keyMatch k row a) = true := by
        simpa [Session.existsFirst] using h a (List.mem_cons_self a rest)
      have hstep : syncStep (keyMatch k) sn a = sn := by
        simp only [syncStep, hcond]
        rfl
      rw [syncFold_cons, hstep]
      exact ih fun r hr => h r (List.mem_cons_of_mem a hr)

/-- The loop never stages two rows with the same key: a record is staged
only when no visible row matches its key, and earlier staged rows are
visible. -/
theorem syncFold_staged_nodup {R K : Type} [DecidableEq K] (k : R → K) (records : List R)
    (sn : Session R × Nat) (h : ((sn.1.staged).map k).Nodup) :
    (((syncFold (keyMatch k) records sn).1.staged).map k).Nodup := by
  induction records generalizing sn with
  | nil => exact h
  | cons a rest ih =>
      rw [syncFold_cons]
      apply ih
      unfold syncStep
      split
      · exact h
      · next hc =>
          have hnot : k a ∉ sn.1.staged.map k := by
            intro hmem
            obtain ⟨row, hrow, hkey⟩ := List.mem_map.mp hmem
            apply hc
            simp only [Session.existsFirst, Session.visible, List.any_append, List.any_eq_true,
              Bool.or_eq_true]
            exact Or.inr ⟨row, hrow, by simp [keyMatch, hkey]⟩
          simp only [Session.execute, List.map_append, List.map_cons, List.map_nil]
          rw [List.nodup_append]
          exact ⟨h, List.nodup_singleton _, by simpa [List.disjoint_singleton] using hnot⟩

/-! Lemmas tying each script's `filter_by` and record construction to the
generic loop lemmas. -/

/-- The imds-etl.py `filter_by` is key equality on `mkIstatNK`. -/
theorem mkIstatMatch_eq_keyMatch {V : Type} [DecidableEq V] (row record : MkIstatRecord V) :
    mkIstatMatch row record = keyMatch mkIstatNK row record := by
  simp [mkIstatMatch, keyMatch, mkIstatNK, Prod.ext_iff]

/-- The imds_trds.py `filter_by` is key equality on `trdNK`. -/
theorem trdMatch_eq_keyMatch {V : Type} [DecidableEq V] (row record : TrdRecord V) :
    trdMatch row record = keyMatch trdNK row record := by
  simp [trdMatch, keyMatch, trdNK, Prod.ext_iff]

/-- Committing returns exactly the rows that were visible in the session. -/
theorem Session.commit_committed {R : Type} (s : Session R) :
    s.commit.committed = s.visible := rfl

/-- The natural key of a mapped MKISTAT record is copied from the source
row and does not depend on the drawn uuid. -/
theorem mapMkistat_nk {V : Type} (u : String) (d : MkistatRow V) :
    mkIstatNK (mapMkistat u d) = (d.MKISTAT_INSTRUMENT_CODE, d.MKISTAT_LM_DATE_TIME) := rfl

/-- The natural key of a mapped TRD record is copied from the source row
and does not depend on the drawn uuid. -/
theorem mapTrd_nk {V : Type} (u : String) (d : TrdRow V) :
    trdNK (mapTrd u d) = (d.TRD_TOTAL_TRADES, d.TRD_LM_DATE_TIME) := rfl

/-- One prepared record per fetched row. -/
theorem prepareMkistat_length {V : Type} (uuids : Nat → String)
    (src : List (MkistatRow V)) (i : Nat) :
    (prepareMkistat uuids src i).length = src.length := by
  induction src generalizing i with
  | nil => rfl
  | cons d rest ih => simp [prepareMkistat, ih]

/-- One prepared record per fetched row. -/
theorem prepareTrd_length {V : Type} (uuids : Nat → String)
    (src : List (TrdRow V)) (i : Nat) :
    (prepareTrd uuids src i).length = src.length := by
  induction src generalizing i with
  | nil => rfl
  | cons d rest ih => simp [prepareTrd, ih]

/-- Every record prepared under one uuid stream has, under any other uuid
stream, a prepared counterpart with the same natural key: the key fields
come from the source row alone. -/
theorem prepareMkistat_nk_cover {V : Type} (u₁ u₂ : Nat → String)
    (src : List (MkistatRow V)) (i j : Nat) :
    ∀ r ∈ prepareMkistat u₂ src j,
      ∃ q ∈ prepareMkistat u₁ src i, mkIstatNK q = mkIstatNK r := by
  induction src generalizing i j with
  | nil => intro r hr; simp [prepareMkistat] at hr
  | cons d rest ih =>
      intro r hr
      simp only [prepareMkistat] at hr ⊢
      rcases List.mem_cons.mp hr with h | h
      · exact ⟨mapMkistat (u₁ i) d, List.mem_cons_self _ _, by rw [h]; exact rfl⟩
      · obtain ⟨q, hq, hk⟩ := ih (i + 1) (j + 1) r h
        exact ⟨q, List.mem_cons_of_mem _ hq, hk⟩

/-- Same as `prepareMkistat_nk_cover` for the TRD job. -/
theorem prepareTrd_nk_cover {V : Type} (u₁ u₂ : Nat → String)
    (src : List (TrdRow V)) (i j : Nat) :
    ∀ r ∈ prepareTrd u₂ src j,
      ∃ q ∈ prepareTrd u₁ src i, trdNK q = trdNK r := by
  induction src generalizing i j with
  | nil => intro r hr; simp [prepareTrd] at hr
  | cons d rest ih =>
      intro r hr
      simp only [prepareTrd] at hr ⊢
      rcases List.mem_cons.mp hr with h | h
      · exact ⟨mapTrd (u₁ i) d, List.mem_cons_self _ _, by rw [h]; exact rfl⟩
      · obtain ⟨q, hq, hk⟩ := ih (i + 1) (j + 1) r h
        exact ⟨q, List.mem_cons_of_mem _ hq, hk⟩

/-! Run-level helper lemmas. -/

/-- The imds-etl.py loop under its `filter_by` equals the loop under plain
key equality on the natural key. -/
theorem syncLoop_mkIstat_key {V : Type} [DecidableEq V]
    (records : List (MkIstatRecord V)) (s : Session (MkIstatRecord V)) :
    syncLoop mkIstatMatch records s = syncLoop (keyMatch mkIstatNK) records s :=
  syncFold_congr (fun a b => mkIstatMatch_eq_keyMatch a b) records (s, 0)

/-- The imds_trds.py loop under its `filter_by` equals the loop under plain
key equality on the natural key. -/
theorem syncLoop_trd_key {V : Type} [DecidableEq V]
    (records : List (TrdRecord V)) (s : Session (TrdRecord V)) :
    syncLoop trdMatch records s = syncLoop (keyMatch trdNK) records s :=
  syncFold_congr (fun a b => trdMatch_eq_keyMatch a b) records (s, 0)

/-- Rolling back a loop run from a clean session restores the original
table content, whatever prefix of records was processed. -/
theorem syncLoop_rollback_committed {R : Type} (filt : R → R → Bool)
    (records : List R) (db : List R) :
    ((syncLoop filt records ⟨db, []⟩).1.rollback).committed = db := by
  have h : (syncLoop filt records ⟨db, []⟩).1.committed = db :=
    syncFold_committed filt records (⟨db, []⟩, 0)
  calc ((syncLoop filt records ⟨db, []⟩).1.rollback).committed
      = (syncLoop filt records ⟨db, []⟩).1.committed := rfl
    _ = db := h

/-- Committing a loop run from a clean session yields the original table
content followed by the newly staged rows. -/
theorem syncLoop_commit_split {R : Type} (filt : R → R → Bool)
    (records : List R) (db : List R) :
    ((syncLoop filt records ⟨db, []⟩).1.commit).committed
      = db ++ (syncLoop filt records ⟨db, []⟩).1.staged := by
  have h : (syncLoop filt records ⟨db, []⟩).1.committed = db :=
    syncFold_committed filt records (⟨db, []⟩, 0)
  calc ((syncLoop filt records ⟨db, []⟩).1.commit).committed
      = (syncLoop filt records ⟨db, []⟩).1.committed
          ++ (syncLoop filt records ⟨db, []⟩).1.staged := rfl
    _ = db ++ (syncLoop filt records ⟨db, []⟩).1.staged := by rw [h]

/-- If every record of a second batch shares its key with some record of a
first batch, then after running and committing the first batch, running the
second batch from the resulting table is a no-op with zero inserts. -/
theorem run_then_rerun_noop {R K : Type} [DecidableEq K] (k : R → K)
    (recs₁ recs₂ : List R) (db : List R)
    (hcov : ∀ r ∈ recs₂, ∃ q ∈ recs₁, k q = k r) :
    syncLoop (keyMatch k) recs₂
        ⟨((syncLoop (keyMatch k) recs₁ ⟨db, []⟩).1.commit).committed, []⟩
      = (⟨((syncLoop (keyMatch k) recs₁ ⟨db, []⟩).1.commit).committed, []⟩, 0) := by
  apply syncFold_noop
  intro r hr
  obtain ⟨q, hq, hk⟩ := hcov r hr
  have hcovq := syncFold_covers k recs₁ (⟨db, []⟩, 0) q hq
  have hpred : (fun row => keyMatch k row q) = (fun row => keyMatch k row r) :=
    funext fun row => keyMatch_congr_right k hk row
  rw [← hpred]
  simpa [Session.visible, Session.commit_committed] using hcovq

/-! Claim theorems. -/

/-- C2: all-or-nothing commit.  Whatever error aborts the run after any
number n (resp. m) of successful existence checks and staged inserts but
before the single end-of-run commit, the session teardown rolls the open
transaction back and the destination table content is exactly what it was
before the run, for both jobs. -/
theorem claim2_all_or_nothing_commit {V : Type} [DecidableEq V]
    (uuids uuidsT : Nat → String)
    (src : List (MkistatRow V)) (db : List (MkIstatRecord V))
    (srcT : List (TrdRow V)) (dbT : List (TrdRecord V)) (n m : Nat) :
    imdsEtlAborted uuids src db n = db ∧ imdsTrdsAborted uuidsT srcT dbT m = dbT :=
  ⟨syncLoop_rollback_committed mkIstatMatch ((prepareMkistat uuids src 0).take n) db,
   syncLoop_rollback_committed trdMatch ((prepareTrd uuidsT srcT 0).take m) dbT⟩

/-- C4: field fidelity of the record mapper.  For every fetched source row,
each mapped destination field of the constructed record equals the value of
the corresponding source field under the fixed field renaming, with no
transformation of the value, for both jobs. -/
theorem claim4_field_fidelity {V : Type} (u w : String) (d : MkistatRow V) (t : TrdRow V) :
    (mapMkistat u d).mkstat_instrument_code = d.MKISTAT_INSTRUMENT_CODE ∧
    (mapMkistat u d).mkstat_instrument_number = d.MKISTAT_INSTRUMENT_NUMBER ∧
    (mapMkistat u d).mkstat_quote_bases = d.MKISTAT_QUOTE_BASES ∧
    (mapMkistat u d).mkstat_open_price = d.MKISTAT_OPEN_PRICE ∧
    (mapMkistat u d).mkstat_pub_last_trade_price = d.MKISTAT_PUB_LAST_TRADED_PRICE ∧
    (mapMkistat u d).mkstat_spot_last_trade_price = d.MKISTAT_SPOT_LAST_TRADED_PRICE ∧
    (mapMkistat u d).mkstat_high_price = d.MKISTAT_HIGH_PRICE ∧
    (mapMkistat u d).mkstat_low_price = d.MKISTAT_LOW_PRICE ∧
    (mapMkistat u d).mkstat_close_price = d.MKISTAT_CLOSE_PRICE ∧
    (mapMkistat u d).mkstat_yday_close_price = d.MKISTAT_YDAY_CLOSE_PRICE ∧
    (mapMkistat u d).mkstat_total_trades = d.MKISTAT_TOTAL_TRADES ∧
    (mapMkistat u d).mkstat_total_volume = d.MKISTAT_TOTAL_VOLUME ∧
    (mapMkistat u d).mkstat_total_value = d.MKISTAT_TOTAL_VALUE ∧
    (mapMkistat u d).mkstat_public_total_trades = d.MKISTAT_PUBLIC_TOTAL_TRADES ∧
    (mapMkistat u d).mkstat_public_total_volume = d.MKISTAT_PUBLIC_TOTAL_VOLUME ∧
    (mapMkistat u d).mkstat_public_total_value = d.MKISTAT_PUBLIC_TOTAL_VALUE ∧
    (mapMkistat u d).mkstat_spot_total_trades = d.MKISTAT_SPOT_TOTAL_TRADES ∧
    (mapMkistat u d).mkstat_spot_total_volume = d.MKISTAT_SPOT_TOTAL_VOLUME ∧
    (mapMkistat u d).mkstat_spot_total_value = d.MKISTAT_SPOT_TOTAL_VALUE ∧
    (mapMkistat u d).mkstat_lm_date_time = d.MKISTAT_LM_DATE_TIME ∧
    (mapTrd w t).trd_total_trades = t.TRD_TOTAL_TRADES ∧
    (mapTrd w t).trd_total_volume = t.TRD_TOTAL_VOLUME ∧
    (mapTrd w t).trd_total_value = t.TRD_TOTAL_VALUE ∧
    (mapTrd w t).trd_lm_date_time = t.TRD_LM_DATE_TIME :=
  ⟨rfl, rfl, rfl, rfl, rfl, rfl, rfl, rfl, rfl, rfl, rfl, rfl, rfl, rfl, rfl, rfl,
   rfl, rfl, rfl, rfl, rfl, rfl, rfl, rfl⟩

/-- C5: in-run natural-key uniqueness.  The natural keys of the records a
run actually stages for insertion are pairwise distinct, because each staged
insert is immediately visible to the next existence probe within the same
transaction; hence two fetched source rows with identical natural-key
fields never both produce inserts, for both jobs. -/
theorem claim5_in_run_nk_unique {V : Type} [DecidableEq V] (uuids uuidsT : Nat → String)
    (src : List (MkistatRow V)) (db : List (MkIstatRecord V))
    (srcT : List (TrdRow V)) (dbT : List (TrdRecord V)) :
    (((syncLoop mkIstatMatch (prepareMkistat uuids src 0) ⟨db, []⟩).1.staged).map mkIstatNK).Nodup ∧
    (((syncLoop trdMatch (prepareTrd uuidsT srcT 0) ⟨dbT, []⟩).1.staged).map trdNK).Nodup := by
  constructor
  · rw [syncLoop_mkIstat_key]
    exact syncFold_staged_nodup mkIstatNK (prepareMkistat uuids src 0) (⟨db, []⟩, 0) (by simp)
  · rw [syncLoop_trd_key]
    exact syncFold_staged_nodup trdNK (prepareTrd uuidsT srcT 0) (⟨dbT, []⟩, 0) (by simp)

/-- C9: prepared equals fetched.  The record-construction loop produces
exactly one prepared insert candidate per fetched source row, for both
jobs: no row is dropped, duplicated or filtered. -/
theorem claim9_prepared_equals_fetched {V : Type} (uuids uuidsT : Nat → String)
    (src : List (MkistatRow V)) (srcT : List (TrdRow V)) :
    (prepareMkistat uuids src 0).length = src.length ∧
    (prepareTrd uuidsT srcT 0).length = srcT.length :=
  ⟨prepareMkistat_length uuids src 0, prepareTrd_length uuidsT srcT 0⟩

/-- C10: insert-only frame property.  A committed run leaves every
pre-existing destination row in place unchanged and only appends new rows,
and an aborted run (after any prefix of the loop) leaves the table exactly
as it was, for both jobs. -/
theorem claim10_insert_only {V : Type} [DecidableEq V] (uuids uuidsT : Nat → String)
    (src : List (MkistatRow V)) (db : List (MkIstatRecord V))
    (srcT : List (TrdRow V)) (dbT : List (TrdRecord V)) (n m : Nat) :
    (∃ new, (imdsEtlRun uuids src db).1 = db ++ new) ∧
    imdsEtlAborted uuids src db n = db ∧
    (∃ newT, (imdsTrdsRun uuidsT srcT dbT).1 = dbT ++ newT) ∧
    imdsTrdsAborted uuidsT srcT dbT m = dbT :=
  ⟨⟨(syncLoop mkIstatMatch (prepareMkistat uuids src 0) ⟨db, []⟩).1.staged,
      syncLoop_commit_split mkIstatMatch (prepareMkistat uuids src 0) db⟩,
   syncLoop_rollback_committed mkIstatMatch ((prepareMkistat uuids src 0).take n) db,
   ⟨(syncLoop trdMatch (prepareTrd uuidsT srcT 0) ⟨dbT, []⟩).1.staged,
      syncLoop_commit_split trdMatch (prepareTrd uuidsT srcT 0) dbT⟩,
   syncLoop_rollback_committed trdMatch ((prepareTrd uuidsT srcT 0).take m) dbT⟩

/-- C1: idempotence of the whole job.  For any destination state produced
by a completed run, re-running the job against the unchanged source (with
fresh uuid draws) performs zero inserts and leaves the table identical:
every existence check finds the previously committed row, so the insert
branch is never taken, for both jobs. -/
theorem claim1_idempotence {V : Type} [DecidableEq V] (u₁ u₂ w₁ w₂ : Nat → String)
    (src : List (MkistatRow V)) (db : List (MkIstatRecord V))
    (srcT : List (TrdRow V)) (dbT : List (TrdRecord V)) :
    imdsEtlRun u₂ src (imdsEtlRun u₁ src db).1 = ((imdsEtlRun u₁ src db).1, 0) ∧
    imdsTrdsRun w₂ srcT (imdsTrdsRun w₁ srcT dbT).1 = ((imdsTrdsRun w₁ srcT dbT).1, 0) := by
  constructor
  · have hmain := run_then_rerun_noop mkIstatNK (prepareMkistat u₁ src 0)
        (prepareMkistat u₂ src 0) db (prepareMkistat_nk_cover u₁ u₂ src 0 0)
    simp only [imdsEtlRun, syncLoop_mkIstat_key]
    rw [hmain]
    simp [Session.commit]
  · have hmain := run_then_rerun_noop trdNK (prepareTrd w₁ srcT 0)
        (prepareTrd w₂ srcT 0) dbT (prepareTrd_nk_cover w₁ w₂ srcT 0 0)
    simp only [imdsTrdsRun, syncLoop_trd_key]
    rw [hmain]
    simp [Session.commit]

/-- C3: the TRD job misreports its inserted count.  With one fetched TRD
row whose natural key (trd_total_trades = 5, trd_lm_date_time = 8) already
has a matching destination row, the loop stages zero inserts and the table
is unchanged by the commit, yet the final log of imds_trds.py line 94
reports the length of the prepared list, namely 1, as the number of
inserted records.  (imds-etl.py reports its loop counter and is not
affected.) -/
theorem claim3_trds_count_misreported :
    (imdsTrdsRun (fun _ => "u") [(⟨5, 6, 7, 8⟩ : TrdRow Nat)] [⟨"old", 5, 0, 0, 8⟩]).2 = 0 ∧
    (imdsTrdsRun (fun _ => "u") [(⟨5, 6, 7, 8⟩ : TrdRow Nat)] [⟨"old", 5, 0, 0, 8⟩]).1
      = [⟨"old", 5, 0, 0, 8⟩] ∧
    imdsTrdsLoggedInserted (fun _ => "u") [(⟨5, 6, 7, 8⟩ : TrdRow Nat)] = 1 := by
  refine ⟨?_, ?_, rfl⟩ <;> rfl

/-- C6: de-duplication is independent of the synthetic identity.  The
existence probe issued for a record reads only that record's natural-key
fields, so two candidate records agreeing on the natural key — whatever
their generated uuid/id — receive the same found/not-found answer, and the
check-and-insert step takes the same decision (same resulting insert
count), for both jobs. -/
theorem claim6_identity_independent {V : Type} [DecidableEq V]
    (s : Session (MkIstatRecord V)) (r₁ r₂ : MkIstatRecord V) (n : Nat)
    (h₁ : r₁.mkstat_instrument_code = r₂.mkstat_instrument_code)
    (h₂ : r₁.mkstat_lm_date_time = r₂.mkstat_lm_date_time)
    (sT : Session (TrdRecord V)) (t₁ t₂ : TrdRecord V) (m : Nat)
    (g₁ : t₁.trd_total_trades = t₂.trd_total_trades)
    (g₂ : t₁.trd_lm_date_time = t₂.trd_lm_date_time) :
    (s.existsFirst (fun row => mkIstatMatch row r₁)
        = s.existsFirst (fun row => mkIstatMatch row r₂)) ∧
    (syncStep mkIstatMatch (s, n) r₁).2 = (syncStep mkIstatMatch (s, n) r₂).2 ∧
    (sT.existsFirst (fun row => trdMatch row t₁)
        = sT.existsFirst (fun row => trdMatch row t₂)) ∧
    (syncStep trdMatch (sT, m) t₁).2 = (syncStep trdMatch (sT, m) t₂).2 := by
  have hp : (fun row => mkIstatMatch row r₁) = (fun row => mkIstatMatch row r₂) :=
    funext fun row => by simp [mkIstatMatch, h₁, h₂]
  have hq : (fun row => trdMatch row t₁) = (fun row => trdMatch row t₂) :=
    funext fun row => by simp [trdMatch, g₁, g₂]
  refine ⟨by rw [hp], ?_, by rw [hq], ?_⟩
  · simp only [syncStep, Session.existsFirst, hp]
    split <;> rfl
  · simp only [syncStep, Session.existsFirst, hq]
    split <;> rfl

/-- C7: the claim that the record mapper is a pure function including the
identity field fails on the code: the uuid is drawn fresh per call, so two
applications of the mapper to the same source row (as in two runs over the
same source) yield records differing in the uuid field. -/
theorem claim7_purity_counterexample :
    mapMkistat "a"
        (⟨1, 2, 3, 4, 5, 6, 7, 8, 9, 10, 11, 12, 13, 14, 15, 16, 17, 18, 19, 20⟩ : MkistatRow Nat)
      ≠ mapMkistat "b"
        (⟨1, 2, 3, 4, 5, 6, 7, 8, 9, 10, 11, 12, 13, 14, 15, 16, 17, 18, 19, 20⟩ : MkistatRow Nat) := by
  decide

/-- C7 amended: the record mapper is pure in every mapped field — two
applications to the same source row agree on all destination fields except
the synthetic identity (uuid resp. id), which is the only field taken from
the random draw, for both jobs. -/
theorem claim7_amended_pure_modulo_identity {V : Type} (u₁ u₂ w₁ w₂ : String)
    (d : MkistatRow V) (t : TrdRow V) :
    mapMkistat u₁ d = { mapMkistat u₂ d with uuid := u₁ } ∧
    mapTrd w₁ t = { mapTrd w₂ t with id := w₁ } :=
  ⟨rfl, rfl⟩

/-- Witness for C6 at concrete sessions and records that agree on the
natural key and differ only in their synthetic identity. -/
theorem claim6_identity_independent_witness :
    ((⟨[], []⟩ : Session (MkIstatRecord Nat)).existsFirst
        (fun row => mkIstatMatch row
          ⟨"a", 1, 1, 1, 1, 1, 1, 1, 1, 1, 1, 1, 1, 1, 1, 1, 1, 1, 1, 1, 1⟩)
      = (⟨[], []⟩ : Session (MkIstatRecord Nat)).existsFirst
        (fun row => mkIstatMatch row
          ⟨"b", 1, 1, 1, 1, 1, 1, 1, 1, 1, 1, 1, 1, 1, 1, 1, 1, 1, 1, 1, 1⟩)) ∧
    (syncStep mkIstatMatch ((⟨[], []⟩ : Session (MkIstatRecord Nat)), 0)
        ⟨"a", 1, 1, 1, 1, 1, 1, 1, 1, 1, 1, 1, 1, 1, 1, 1, 1, 1, 1, 1, 1⟩).2
      = (syncStep mkIstatMatch ((⟨[], []⟩ : Session (MkIstatRecord Nat)), 0)
        ⟨"b", 1, 1, 1, 1, 1, 1, 1, 1, 1, 1, 1, 1, 1, 1, 1, 1, 1, 1, 1, 1⟩).2 ∧
    ((⟨[], []⟩ : Session (TrdRecord Nat)).existsFirst
        (fun row => trdMatch row ⟨"c", 1, 2, 3, 4⟩)
      = (⟨[], []⟩ : Session (TrdRecord Nat)).existsFirst
        (fun row => trdMatch row ⟨"d", 1, 2, 3, 4⟩)) ∧
    (syncStep trdMatch ((⟨[], []⟩ : Session (TrdRecord Nat)), 0) ⟨"c", 1, 2, 3, 4⟩).2
      = (syncStep trdMatch ((⟨[], []⟩ : Session (TrdRecord Nat)), 0) ⟨"d", 1, 2, 3, 4⟩).2 :=
  claim6_identity_independent ⟨[], []⟩ _ _ 0 rfl rfl ⟨[], []⟩ _ _ 0 rfl rfl

/-- C8: the claim fails at the environment-loading stage.  With
MYSQL_PASSWORD unset, `quote(None)` at imds-etl.py line 35 raises a
TypeError before the `try` statement is reached, so the exception escapes
past the process boundary instead of being logged. -/
theorem claim8_no_escape_counterexample :
    scriptRun ⟨none, some "pw"⟩ (Except.ok ()) = Outcome.uncaught "TypeError" := rfl

/-- C8 amended: provided both password environment variables are set (so
the pre-try quoting at lines 35 and 43 succeeds), every error raised at any
stage inside the try block — connection, fetch, mapping, existence check,
insert or commit — is caught by the bare except and logged, and the run
terminates normally without raising past the process boundary. -/
theorem claim8_amended_no_escape_inside_try (env : Env) (tryBody : Except String Unit)
    (h₁ : env.MYSQL_PASSWORD.isSome = true) (h₂ : env.POSTGRES_PASSWORD.isSome = true) :
    ∃ log, scriptRun env tryBody = Outcome.completed log := by
  cases env with
  | mk mp pp =>
      cases mp with
      | none => simp at h₁
      | some p =>
          cases pp with
          | none => simp at h₂
          | some q =>
              cases tryBody with
              | error e => exact ⟨some e, rfl⟩
              | ok u => exact ⟨none, rfl⟩

/-- Witness for C8 amended: a query failure inside the try block completes
the run with the error logged rather than raised. -/
theorem claim8_amended_no_escape_inside_try_witness :
    ∃ log, scriptRun ⟨some "a", some "b"⟩ (Except.error "QueryError")
      = Outcome.completed log :=
  claim8_amended_no_escape_inside_try ⟨some "a", some "b"⟩ (Except.error "QueryError") rfl rfl
